import Mathlib

/-!
Shallow embedding of the embed-suppression correlation engine of the
linkfixbot repository (module `fix_existing_message.rs`, helpers from
`util.rs`).  Message IDs are modelled as `Nat`, `Vec<T>` as `List T`,
`Option<T>` as `Option T`.  The `RwLock`-guarded shared state is modelled
as an explicit `FutureEmbedRemovalsInner` value threaded through the
operations; each public async operation of `FutureEmbedRemovals` becomes a
pure state transformer (the lock makes every such operation atomic at
runtime, so a sequence of operations is modelled by function composition).
The `println!` logging is dropped.
-/

set_option autoImplicit false

namespace Linkfixbot

/-- Embedding of `Iterator::position` from Rust: index of the first element
satisfying the predicate, if any. -/
def position {α : Type} (p : α → Bool) : List α → Option Nat
  | [] => none
  | a :: l => if p a then some 0 else (position p l).map (· + 1)

/-- Embedding of `Vec::swap_remove(i)`: the element at `i` is replaced by
the last element, and the last element is removed.  (For an out-of-range
index Rust panics; this total model is only ever used at valid indices,
which all callers guarantee via `position`.) -/
def swapRemove {α : Type} (l : List α) (i : Nat) : List α :=
  match l.getLast? with
  | none => l
  | some last => (l.set i last).dropLast

/-- `struct FutureEmbedRemoval` (fix_existing_message.rs lines 20-28): a
pending correlation for which neither side's embeds are known yet. -/
structure FutureEmbedRemoval where
  original_message : Nat
  bot_message : Nat
  fixable_embed_links : List String
  deriving DecidableEq, Repr

/-- `struct FutureEmbedRemovalOriginalGenerated` (lines 30-37): the
original side's target embed count is known. -/
structure FutureEmbedRemovalOriginalGenerated where
  original_message : Nat
  bot_message : Nat
  target_embed_count : Nat
  deriving DecidableEq, Repr

/-- `struct FutureEmbedRemovalBotMessageGenerated` (lines 39-48): the bot
message's embed count is known. -/
structure FutureEmbedRemovalBotMessageGenerated where
  original_message : Nat
  _bot_message : Nat
  fixable_embed_links : List String
  embed_count : Nat
  deriving DecidableEq, Repr

/-- `struct FutureEmbedRemovalsInner` (lines 292-297).  The
`message_with_fixable_embeds` map is initialized empty and never touched
by any operation in the source; it is kept for faithfulness. -/
structure FutureEmbedRemovalsInner where
  message_with_fixable_embeds : List (Nat × Nat)
  neither : List FutureEmbedRemoval
  original : List FutureEmbedRemovalOriginalGenerated
  bot : List FutureEmbedRemovalBotMessageGenerated
  deriving DecidableEq, Repr

/-- `FutureEmbedRemovalsInner::new()` (lines 299-308). -/
def FutureEmbedRemovalsInner.new : FutureEmbedRemovalsInner :=
  { message_with_fixable_embeds := []
    neither := []
    original := []
    bot := [] }

namespace FutureEmbedRemovals

/-- `FutureEmbedRemovals::add_neither_generated` (lines 63-80). -/
def add_neither_generated (s : FutureEmbedRemovalsInner)
    (original_message bot_message : Nat) (fixable_embed_links : List String) :
    FutureEmbedRemovalsInner :=
  { s with neither := s.neither ++
      [{ original_message := original_message
         bot_message := bot_message
         fixable_embed_links := fixable_embed_links }] }

/-- `FutureEmbedRemovals::add_original_generated` (lines 81-98). -/
def add_original_generated (s : FutureEmbedRemovalsInner)
    (original_message bot_message : Nat) (target_embed_count : Nat) :
    FutureEmbedRemovalsInner :=
  { s with original := s.original ++
      [{ original_message := original_message
         bot_message := bot_message
         target_embed_count := target_embed_count }] }

/-- `FutureEmbedRemovals::add_bot_generated` (lines 99-118). -/
def add_bot_generated (s : FutureEmbedRemovalsInner)
    (original_message bot_message : Nat) (fixable_embed_links : List String)
    (embed_count : Nat) : FutureEmbedRemovalsInner :=
  { s with bot := s.bot ++
      [{ original_message := original_message
         _bot_message := bot_message
         fixable_embed_links := fixable_embed_links
         embed_count := embed_count }] }

/-- Second half of `update_bot_generated` (lines 159-187): look for an
entry in the `original` bucket with this bot message.  This part of the
source runs while holding only the read guard, so the state is never
mutated here; on a count match it returns the original message (to be
suppressed) and on a mismatch or a missed lookup it returns `none`. -/
def ubgOriginalPhase (s : FutureEmbedRemovalsInner)
    (bot_message embed_count : Nat) : FutureEmbedRemovalsInner × Option Nat :=
  if s.original.any (fun removal => removal.bot_message == bot_message) then
    match s.original.find? (fun removal => removal.bot_message == bot_message) with
    | some removal =>
      if removal.target_embed_count == embed_count then
        (s, some removal.original_message)
      else
        (s, none)
    | none => (s, none)
  else
    (s, none)

/-- `FutureEmbedRemovals::update_bot_generated` (lines 120-188).  If the
bot message is found in the `neither` bucket, the entry is moved (under
the write guard) to the `bot` bucket carrying the new embed count and
`none` is returned; otherwise the `original` bucket is consulted
(`ubgOriginalPhase`).  The inner `get?`-`none` arm is unreachable:
`position` only returns valid indices. -/
def update_bot_generated (s : FutureEmbedRemovalsInner)
    (bot_message embed_count : Nat) : FutureEmbedRemovalsInner × Option Nat :=
  if s.neither.any (fun removal => removal.bot_message == bot_message) then
    match position (fun removal => removal.bot_message == bot_message) s.neither with
    | some index =>
      match s.neither.get? index with
      | some removal =>
        ({ s with
            neither := swapRemove s.neither index
            bot := s.bot ++
              [{ original_message := removal.original_message
                 _bot_message := removal.bot_message
                 fixable_embed_links := removal.fixable_embed_links
                 embed_count := embed_count }] }, none)
      | none => (s, none)
    | none => ubgOriginalPhase s bot_message embed_count
  else
    ubgOriginalPhase s bot_message embed_count

end FutureEmbedRemovals

/-- `determine_target_embed_count`, loop body (lines 347-359): for each
fixable link in order, consume the first remaining embed URL equal to it
(via `position` and `swap_remove`), counting the matches.  Returns the
remaining embed URLs and the match count. -/
def dtecGo : List String → List String → Nat → List String × Nat
  | embed_urls, [], target_embed_count => (embed_urls, target_embed_count)
  | embed_urls, fixable_url :: rest, target_embed_count =>
    match position (fun url => url == fixable_url) embed_urls with
    | some pos => dtecGo (swapRemove embed_urls pos) rest (target_embed_count + 1)
    | none => dtecGo embed_urls rest target_embed_count

/-- `determine_target_embed_count` (lines 347-359): the count is defined
only if every embed URL was consumed (`embed_urls.is_empty().then_some`). -/
def determine_target_embed_count (embed_urls : List String)
    (fixable_embed_links : List String) : Option Nat :=
  let result := dtecGo embed_urls fixable_embed_links 0
  if result.1.isEmpty then some result.2 else none

namespace FutureEmbedRemovals

/-- Second half of `update_original_generated` (lines 244-288): look in
the `bot` bucket.  The source takes `position` over the iterator
*filtered* to entries with this original message, but then passes that
position straight to `swap_remove` on the unfiltered vector; the embedding
reproduces this faithfully. -/
def uogBotPhase (s : FutureEmbedRemovalsInner)
    (original_message : Nat) (embed_links : List String) :
    FutureEmbedRemovalsInner × Bool :=
  if s.bot.any (fun removal => removal.original_message == original_message) then
    match position
        (fun removal =>
          match determine_target_embed_count embed_links removal.fixable_embed_links with
          | some target_embed_count => target_embed_count == removal.embed_count
          | none => false)
        (s.bot.filter (fun removal => removal.original_message == original_message)) with
    | some index => ({ s with bot := swapRemove s.bot index }, true)
    | none => (s, false)
  else
    (s, false)

/-- `FutureEmbedRemovals::update_original_generated` (lines 190-289).  If
the original message is found in the `neither` bucket, the entry is
removed; when the target-count computation succeeds the entry moves to the
`original` bucket, otherwise it is dropped, and `false` is returned either
way.  Otherwise the `bot` bucket is consulted (`uogBotPhase`).  The inner
`get?`-`none` arm is unreachable, as in `update_bot_generated`. -/
def update_original_generated (s : FutureEmbedRemovalsInner)
    (original_message : Nat) (embed_links : List String) :
    FutureEmbedRemovalsInner × Bool :=
  if s.neither.any (fun removal => removal.original_message == original_message) then
    match position (fun removal => removal.original_message == original_message) s.neither with
    | some index =>
      match s.neither.get? index with
      | some removal =>
        let s' := { s with neither := swapRemove s.neither index }
        match determine_target_embed_count embed_links removal.fixable_embed_links with
        | some target_embed_count =>
          ({ s' with original := s'.original ++
              [{ original_message := removal.original_message
                 bot_message := removal.bot_message
                 target_embed_count := target_embed_count }] }, false)
        | none => (s', false)
      | none => (s, false)
    | none => uogBotPhase s original_message embed_links
  else
    uogBotPhase s original_message embed_links

end FutureEmbedRemovals

/-- A platform update event relevant to one pending correlation, as fed to
the store by the two `message_update` handlers (lines 451-489): either the
bot (reply) message reports its embed count (`update_bot_generated`), or
the original message reports its embed URLs (`update_original_generated`). -/
inductive Signal where
  | botGen (bot_message embed_count : Nat)
  | originalGen (original_message : Nat) (embed_links : List String)
  deriving DecidableEq, Repr

/-- One handler invocation: the resulting store, and how many suppression
calls were issued (`handle_bot_message_embed_generation` suppresses when
`update_bot_generated` returns a message, lines 458-466;
`handle_user_message_embed_generation` suppresses when
`update_original_generated` returns true, lines 482-487). -/
def stepSignal (s : FutureEmbedRemovalsInner) :
    Signal → FutureEmbedRemovalsInner × Nat
  | .botGen bot_message embed_count =>
    let r := FutureEmbedRemovals.update_bot_generated s bot_message embed_count
    (r.1, if r.2.isSome then 1 else 0)
  | .originalGen original_message embed_links =>
    let r := FutureEmbedRemovals.update_original_generated s original_message embed_links
    (r.1, if r.2 then 1 else 0)

/-- Delivering a sequence of signals to the store: final store and total
number of suppression calls issued. -/
def runSignals (s : FutureEmbedRemovalsInner) :
    List Signal → FutureEmbedRemovalsInner × Nat
  | [] => (s, 0)
  | sig :: rest =>
    let r := stepSignal s sig
    let r' := runSignals r.1 rest
    (r'.1, r.2 + r'.2)

/-- A platform message as the suppression handler sees it: its ID and its
embeds, each embed carrying an optional URL (serenity `Embed::url`). -/
structure Msg where
  id : Nat
  embeds : List (Option String)
  deriving DecidableEq, Repr

/-- `get_embed_urls` (util.rs lines 30-35): the URLs of those embeds that
have one (`filter_map(|embed| embed.url.clone())`). -/
def get_embed_urls (embeds : List (Option String)) : List String :=
  embeds.filterMap id

/-- Number of non-overlapping matches of the regex pattern of two pipe
characters, scanning left to right as `Regex::captures_iter` does. -/
def countSpoilerMarks : List Char → Nat
  | '|' :: '|' :: rest => countSpoilerMarks rest + 1
  | _ :: rest => countSpoilerMarks rest
  | [] => 0

/-- `has_spoilers` (util.rs lines 6-11): true when the iterator over the
matches of the two-pipe pattern has a second element
(`captures_iter(str).nth(1).is_some()`), i.e. at least two
non-overlapping matches occur. -/
def has_spoilers (s : String) : Bool :=
  decide (2 ≤ countSpoilerMarks s.data)

/-- A character of the class of digits, ASCII letters and underscore,
matched case-insensitively (the regex class with the `i` flag). -/
def isWordChar (c : Char) : Bool :=
  c.isAlphanum || c == '_'

/-- Case-insensitive literal-prefix match: strips `pat` (given in lower
case) from the front of `s`, comparing lowercased characters, and returns
the rest. -/
def ciStrip : List Char → List Char → Option (List Char)
  | [], s => some s
  | _ :: _, [] => none
  | p :: ps, c :: cs => if c.toLower == p then ciStrip ps cs else none

/-- `x_to_twitter` (util.rs lines 13-21): match the anchored
case-insensitive pattern consisting of the literal `https://x.com/`, then
a capture group of one or more word characters, the literal `/status/`,
one or more digits, and any trailing non-whitespace; on a match, prepend
`https://twitter.com/` to the captured group (which spans from after the
host prefix to the end of the string, case preserved). -/
def x_to_twitter (link : String) : Option String :=
  match ciStrip "https://x.com/".data link.data with
  | none => none
  | some rest =>
    let run := rest.takeWhile isWordChar
    let afterRun := rest.dropWhile isWordChar
    if run.isEmpty then none
    else
      match ciStrip "/status/".data afterRun with
      | none => none
      | some digitsPart =>
        match digitsPart with
        | [] => none
        | c :: _ =>
          if c.isDigit && digitsPart.all (fun ch => !ch.isWhitespace) then
            some ("https://twitter.com/" ++ String.mk rest)
          else none

/-- One result of the link-rewrite engine (`struct LinkFix`,
fix_link.rs lines 48-53). -/
structure LinkFix where
  link : String
  fixed : String
  remove_embed : Bool
  deriving DecidableEq, Repr

/-- The single pass of `fix_existing_message` over the fixes (lines
328-338): collects the URLs of the fixes whose embed should be removed
(`x_to_twitter(fix.link)` falling back to the link itself) and the fixed
strings, in order. -/
def collectFixes : List LinkFix → List String × List String
  | [] => ([], [])
  | fix :: rest =>
    let r := collectFixes rest
    (if fix.remove_embed then (x_to_twitter fix.link).getD fix.link :: r.1 else r.1,
     fix.fixed :: r.2)

/-- `fix_existing_message` (lines 322-345).  The link-rewrite engine
(the free function `find_and_fix`, an external stateless collaborator
whose definition is not part of this module) is passed in as the list of
fixes it produced for the content.  Returns `none` when the content has
spoilers or when no fix was produced; otherwise the joined output and the
fixable URLs. -/
def fix_existing_message (content : String) (fixes : List LinkFix) :
    Option (String × List String) :=
  if has_spoilers content then none
  else
    let r := collectFixes fixes
    let output := String.intercalate "\n" r.2
    if output.isEmpty then none
    else some (output, r.1)

/-- `handle_embed_suppression` (lines 390-449), store-and-decision part.
Returns the updated store and whether an immediate suppression was issued.
When both messages already have embeds the store is untouched and the
suppression decision is made synchronously; otherwise one of the three
`add` operations runs (the `(false, false)` arm is `unreachable!` in the
source). -/
def handle_embed_suppression (s : FutureEmbedRemovalsInner)
    (original_message bot_message : Msg) (fixable_embed_links : List String) :
    FutureEmbedRemovalsInner × Bool :=
  if !original_message.embeds.isEmpty && !bot_message.embeds.isEmpty then
    (s,
      match determine_target_embed_count (get_embed_urls original_message.embeds)
          fixable_embed_links with
      | some target_embed_count => target_embed_count == bot_message.embeds.length
      | none => false)
  else
    match original_message.embeds.isEmpty, bot_message.embeds.isEmpty with
    | true, true =>
      (FutureEmbedRemovals.add_neither_generated s original_message.id bot_message.id
        fixable_embed_links, false)
    | true, false =>
      (match determine_target_embed_count (get_embed_urls original_message.embeds)
          fixable_embed_links with
       | some target_embed_count =>
         FutureEmbedRemovals.add_original_generated s original_message.id bot_message.id
           target_embed_count
       | none => s, false)
    | false, true =>
      (FutureEmbedRemovals.add_bot_generated s original_message.id bot_message.id
        fixable_embed_links bot_message.embeds.length, false)
    | false, false => (s, false)

/-! ### Helper lemmas about `position` and `swapRemove` -/

section ListLemmas

variable {α : Type}

theorem position_eq_some {p : α → Bool} :
    ∀ {l : List α} {i : Nat}, position p l = some i →
      ∃ r, l.get? i = some r ∧ p r = true := by
  intro l
  induction l with
  | nil => intro i h; simp [position] at h
  | cons a l ih =>
    intro i h
    by_cases hpa : p a
    · simp [position, hpa] at h
      exact ⟨a, by simp [← h], hpa⟩
    · simp [position, hpa, Option.map_eq_some'] at h
      obtain ⟨j, hj, rfl⟩ := h
      obtain ⟨r, hr, hpr⟩ := ih hj
      exact ⟨r, by simpa using hr, hpr⟩

theorem position_eq_none {p : α → Bool} :
    ∀ {l : List α}, position p l = none → ∀ x ∈ l, p x = false := by
  intro l
  induction l with
  | nil => intro _ x hx; simp at hx
  | cons a l ih =>
    intro h x hx
    by_cases hpa : p a
    · simp [position, hpa] at h
    · rcases List.mem_cons.mp hx with rfl | hx'
      · exact Bool.eq_false_iff.mpr hpa
      · simp [position, hpa, Option.map_eq_none'] at h
        exact ih h x hx'

theorem any_of_position_some {p : α → Bool} {l : List α} {i : Nat}
    (h : position p l = some i) : l.any p = true := by
  obtain ⟨r, hr, hpr⟩ := position_eq_some h
  obtain ⟨hlen, hget⟩ := List.get?_eq_some.mp hr
  exact List.any_eq_true.mpr ⟨r, hget ▸ List.get_mem l _ _, hpr⟩

theorem swapRemove_cons_succ (a b : α) (l : List α) (i : Nat) :
    swapRemove (a :: b :: l) (i + 1) = a :: swapRemove (b :: l) i := by
  have hgl : (b :: l).getLast? = some ((b :: l).getLast (List.cons_ne_nil b l)) :=
    List.getLast?_eq_getLast _ _
  unfold swapRemove
  rw [List.getLast?_cons_cons, hgl]
  cases i with
  | zero => rfl
  | succ j => rfl

theorem count_dropLast [DecidableEq α] (l : List α) (h : l ≠ []) (u : α) :
    l.dropLast.count u + (if l.getLast h = u then 1 else 0) = l.count u := by
  conv_rhs => rw [← List.dropLast_append_getLast h]
  rw [List.count_append]
  by_cases hgu : l.getLast h = u
  · simp [hgu]
  · have : u ∉ [l.getLast h] := by simp [Ne.symm hgu]
    simp [hgu, List.count_eq_zero.mpr this]

theorem count_swapRemove [DecidableEq α] :
    ∀ (l : List α) (i : Nat) (r : α), l.get? i = some r →
      ∀ u : α, (swapRemove l i).count u + (if r = u then 1 else 0) = l.count u := by
  intro l
  induction l with
  | nil => intro i r h; simp at h
  | cons a l ih =>
    intro i r h u
    cases i with
    | zero =>
      have hra : r = a := by simpa using h.symm
      subst hra
      cases l with
      | nil =>
        by_cases hru : r = u <;> simp [swapRemove, List.count_cons, hru]
      | cons b l' =>
        have hgl : (b :: l').getLast? = some ((b :: l').getLast (List.cons_ne_nil b l')) :=
          List.getLast?_eq_getLast _ _
        have hcd := count_dropLast (b :: l') (List.cons_ne_nil b l') u
        unfold swapRemove
        rw [List.getLast?_cons_cons, hgl]
        show ((((b :: l').getLast _) :: b :: l').dropLast).count u + _ = _
        rw [List.dropLast_cons₂, List.count_cons, List.count_cons]
        by_cases h1 : (b :: l').getLast (List.cons_ne_nil b l') = u <;>
          by_cases h2 : r = u <;> simp [h1, h2] at hcd ⊢ <;> omega
    | succ j =>
      cases l with
      | nil => simp at h
      | cons b l' =>
        have hj : (b :: l').get? j = some r := by simpa using h
        have := ih j r hj u
        rw [swapRemove_cons_succ, List.count_cons, List.count_cons]
        by_cases h2 : r = u <;> simp [h2] at this ⊢ <;> omega

theorem length_swapRemove (l : List α) (i : Nat) (h : l ≠ []) :
    (swapRemove l i).length = l.length - 1 := by
  have hgl : l.getLast? = some (l.getLast h) := List.getLast?_eq_getLast _ _
  unfold swapRemove
  rw [hgl, List.length_dropLast, List.length_set]

end ListLemmas

/-! ### Invariants of the target-count loop -/

theorem dtecGo_count :
    ∀ (fixable : List String) (e : List String) (n : Nat) (u : String),
      ((dtecGo e fixable n).1).count u = e.count u - fixable.count u := by
  intro fixable
  induction fixable with
  | nil => intro e n u; simp [dtecGo]
  | cons g fs ih =>
    intro e n u
    rw [dtecGo]
    cases hp : position (fun url => url == g) e with
    | none =>
      have hg : e.count g = 0 := by
        rw [List.count_eq_zero]
        intro hmem
        have := position_eq_none hp g hmem
        simp at this
      rw [ih, List.count_cons]
      by_cases hug : u = g
      · subst hug; omega
      · have : (g == u) = false := by simp [beq_iff_eq, Ne.symm hug]
        simp [this]
    | some pos =>
      obtain ⟨r, hget, hpr⟩ := position_eq_some hp
      have hr : r = g := by simpa using hpr
      rw [hr] at hget
      have hc := count_swapRemove e pos g hget u
      rw [ih, List.count_cons]
      by_cases hug : u = g
      · subst hug; simp at hc ⊢; omega
      · have hgu : (g == u) = false := by simp [beq_iff_eq, Ne.symm hug]
        have hgu' : ¬(g = u) := Ne.symm hug
        simp [hgu, hgu'] at hc ⊢
        omega

theorem dtecGo_len :
    ∀ (fixable : List String) (e : List String) (n : Nat),
      (dtecGo e fixable n).2 + ((dtecGo e fixable n).1).length = n + e.length := by
  intro fixable
  induction fixable with
  | nil => intro e n; simp [dtecGo]
  | cons g fs ih =>
    intro e n
    rw [dtecGo]
    cases hp : position (fun url => url == g) e with
    | none => exact ih e n
    | some pos =>
      obtain ⟨r, hget, _⟩ := position_eq_some hp
      have hpos : pos < e.length := (List.get?_eq_some.mp hget).1
      have hne : e ≠ [] := by
        intro h0; rw [h0] at hpos; simp at hpos
      have hlen := length_swapRemove e pos hne
      have := ih (swapRemove e pos) (n + 1)
      rw [this, hlen]
      omega

/-- Claim C4: `determine_target_embed_count` returns a defined value
exactly when every embed URL appears among the fixable links with
sufficient multiplicity, in which case the value is the number of matches
found (one per embed URL); in particular on embeds `[A, B]` with fixable
links `[A, B]` it returns `some 2`, and with fixable links `[A]` it
abstains. -/
theorem determine_target_embed_count_spec (e f : List String) :
    (determine_target_embed_count e f =
      if ∀ u ∈ e, e.count u ≤ f.count u then some e.length else none)
    ∧ determine_target_embed_count ["A", "B"] ["A", "B"] = some 2
    ∧ determine_target_embed_count ["A", "B"] ["A"] = none := by
  refine ⟨?_, by decide, by decide⟩
  unfold determine_target_embed_count
  have hcount := dtecGo_count f e 0
  have hlen := dtecGo_len f e 0
  by_cases hc : ∀ u ∈ e, e.count u ≤ f.count u
  · have hall : ∀ u, e.count u ≤ f.count u := by
      intro u
      by_cases hu : u ∈ e
      · exact hc u hu
      · simp [List.count_eq_zero.mpr hu]
    have hr1 : (dtecGo e f 0).1 = [] := by
      rw [List.eq_nil_iff_forall_not_mem]
      intro x hx
      have hpos : 0 < ((dtecGo e f 0).1).count x := List.count_pos_iff.mpr hx
      rw [hcount x] at hpos
      have := hall x
      omega
    have hval : (dtecGo e f 0).2 = e.length := by
      rw [hr1] at hlen
      simpa using hlen
    rw [if_pos hc]
    simp [hr1, hval]
  · push_neg at hc
    obtain ⟨u, hue, hlt⟩ := hc
    have hpos : 0 < ((dtecGo e f 0).1).count u := by
      rw [hcount u]; omega
    have hne : (dtecGo e f 0).1 ≠ [] := by
      intro h0; rw [h0] at hpos; simp at hpos
    have hif : (∀ u ∈ e, e.count u ≤ f.count u) = False := by
      simp only [eq_iff_iff, iff_false]
      push_neg
      exact ⟨u, hue, hlt⟩
    simp [hif, List.isEmpty_iff, hne]

/-! ### Behavior of the store operations -/

namespace FutureEmbedRemovals

theorem ubgOriginalPhase_fst (s : FutureEmbedRemovalsInner) (b ec : Nat) :
    (ubgOriginalPhase s b ec).1 = s := by
  unfold ubgOriginalPhase
  repeat' split
  all_goals rfl

theorem update_bot_generated_not_neither {s : FutureEmbedRemovalsInner} {b ec : Nat}
    (h : s.neither.any (fun r => r.bot_message == b) = false) :
    update_bot_generated s b ec = ubgOriginalPhase s b ec := by
  unfold update_bot_generated
  simp [h]

theorem ubgOriginalPhase_find {s : FutureEmbedRemovalsInner} {b ec : Nat}
    {r : FutureEmbedRemovalOriginalGenerated}
    (hfind : s.original.find? (fun x => x.bot_message == b) = some r) :
    ubgOriginalPhase s b ec =
      (s, if r.target_embed_count = ec then some r.original_message else none) := by
  have hp := List.find?_some hfind
  have hany : s.original.any (fun x => x.bot_message == b) = true :=
    List.any_eq_true.mpr ⟨r, List.mem_of_find?_eq_some hfind, hp⟩
  unfold ubgOriginalPhase
  rw [hany, hfind]
  by_cases h : r.target_embed_count = ec <;> simp [h]

theorem update_bot_generated_neither {s : FutureEmbedRemovalsInner} {b ec i : Nat}
    {r : FutureEmbedRemoval}
    (hpos : position (fun x => x.bot_message == b) s.neither = some i)
    (hget : s.neither.get? i = some r) :
    update_bot_generated s b ec =
      ({ s with
          neither := swapRemove s.neither i
          bot := s.bot ++
            [{ original_message := r.original_message
               _bot_message := r.bot_message
               fixable_embed_links := r.fixable_embed_links
               embed_count := ec }] }, none) := by
  have hany := any_of_position_some hpos
  have hget' : s.neither[i]? = some r := by
    rw [← List.get?_eq_getElem?]
    exact hget
  unfold update_bot_generated
  simp [hany, hpos, hget']

end FutureEmbedRemovals

theorem stepSignal_empty (m : List (Nat × Nat)) (sig : Signal) :
    stepSignal ⟨m, [], [], []⟩ sig = (⟨m, [], [], []⟩, 0) := by
  cases sig <;>
    simp [stepSignal, FutureEmbedRemovals.update_bot_generated,
      FutureEmbedRemovals.update_original_generated,
      FutureEmbedRemovals.ubgOriginalPhase, FutureEmbedRemovals.uogBotPhase]

theorem runSignals_empty (m : List (Nat × Nat)) :
    ∀ sigs, runSignals ⟨m, [], [], []⟩ sigs = (⟨m, [], [], []⟩, 0) := by
  intro sigs
  induction sigs with
  | nil => rfl
  | cons sig rest ih => simp [runSignals, stepSignal_empty, ih]

theorem swapRemove_single {α : Type} (a : α) : swapRemove [a] 0 = [] := rfl

/-- A bot-message signal finding the single `neither` entry moves it to
the `bot` bucket with the reported count. -/
theorem ubg_neither_single (m : List (Nat × Nat)) (e : FutureEmbedRemoval)
    (ec : Nat) :
    FutureEmbedRemovals.update_bot_generated ⟨m, [e], [], []⟩ e.bot_message ec
    = (⟨m, [], [],
        [{ original_message := e.original_message
           _bot_message := e.bot_message
           fixable_embed_links := e.fixable_embed_links
           embed_count := ec }]⟩, none) := by
  have h := @FutureEmbedRemovals.update_bot_generated_neither
    ⟨m, [e], [], []⟩ e.bot_message ec 0 e (by simp [position]) rfl
  simpa [swapRemove_single] using h

/-- An original-message signal finding the single `neither` entry: the
entry is removed, and re-added to the `original` bucket exactly when the
target-count computation succeeds. -/
theorem uog_neither_single (m : List (Nat × Nat)) (e : FutureEmbedRemoval)
    (urls : List String) :
    FutureEmbedRemovals.update_original_generated ⟨m, [e], [], []⟩
        e.original_message urls
    = match determine_target_embed_count urls e.fixable_embed_links with
      | some t => (⟨m, [],
          [{ original_message := e.original_message
             bot_message := e.bot_message
             target_embed_count := t }], []⟩, false)
      | none => (⟨m, [], [], []⟩, false) := by
  unfold FutureEmbedRemovals.update_original_generated
  cases hd : determine_target_embed_count urls e.fixable_embed_links <;>
    simp [position, swapRemove_single, hd]

/-- An original-message signal against a store holding one matching
`bot`-bucket entry whose count check succeeds: the entry is removed and
suppression is requested. -/
theorem uog_botPhase_single_match (m : List (Nat × Nat))
    (entry : FutureEmbedRemovalBotMessageGenerated) (urls : List String)
    (h : (match determine_target_embed_count urls entry.fixable_embed_links with
          | some t => t == entry.embed_count
          | none => false) = true) :
    FutureEmbedRemovals.update_original_generated ⟨m, [], [], [entry]⟩
        entry.original_message urls
    = (⟨m, [], [], []⟩, true) := by
  unfold FutureEmbedRemovals.update_original_generated
    FutureEmbedRemovals.uogBotPhase
  simp [position, swapRemove_single, h]

/-- An original-message signal against a store holding one matching
`bot`-bucket entry whose count check fails: nothing changes and no
suppression is requested. -/
theorem uog_botPhase_single_nomatch (m : List (Nat × Nat))
    (entry : FutureEmbedRemovalBotMessageGenerated) (urls : List String)
    (h : (match determine_target_embed_count urls entry.fixable_embed_links with
          | some t => t == entry.embed_count
          | none => false) = false) :
    FutureEmbedRemovals.update_original_generated ⟨m, [], [], [entry]⟩
        entry.original_message urls
    = (⟨m, [], [], [entry]⟩, false) := by
  unfold FutureEmbedRemovals.update_original_generated
    FutureEmbedRemovals.uogBotPhase
  simp [position, h]

/-- A bot-message signal against a store holding one matching
`original`-bucket entry: the stored target count decides the result, and
the store is unchanged either way. -/
theorem ubg_origPhase_single (m : List (Nat × Nat))
    (entry : FutureEmbedRemovalOriginalGenerated) (ec : Nat) :
    FutureEmbedRemovals.update_bot_generated ⟨m, [], [entry], []⟩
        entry.bot_message ec
    = (⟨m, [], [entry], []⟩,
        if entry.target_embed_count = ec then some entry.original_message
        else none) := by
  rw [FutureEmbedRemovals.update_bot_generated_not_neither (by simp)]
  exact FutureEmbedRemovals.ubgOriginalPhase_find (by simp [List.find?])

/-- From a single pending entry with neither side known, receiving the
bot-message signal first and then the original-message signal: one
suppression exactly when the target count computed from the original's
embed URLs equals the reported bot embed count. -/
theorem runSignals_botFirst (m : List (Nat × Nat)) (e : FutureEmbedRemoval)
    (ec : Nat) (urls : List String) :
    runSignals ⟨m, [e], [], []⟩
      [Signal.botGen e.bot_message ec, Signal.originalGen e.original_message urls]
    = if determine_target_embed_count urls e.fixable_embed_links = some ec
        then (⟨m, [], [], []⟩, 1)
        else (⟨m, [], [],
          [{ original_message := e.original_message
             _bot_message := e.bot_message
             fixable_embed_links := e.fixable_embed_links
             embed_count := ec }]⟩, 0) := by
  have h1 := ubg_neither_single m e ec
  cases hd : determine_target_embed_count urls e.fixable_embed_links with
  | none =>
    have h2 := uog_botPhase_single_nomatch m
      ⟨e.original_message, e.bot_message, e.fixable_embed_links, ec⟩ urls
      (by simp [hd])
    simp [runSignals, stepSignal, h1, h2, hd]
  | some t =>
    by_cases ht : t = ec
    · subst ht
      have h2 := uog_botPhase_single_match m
        ⟨e.original_message, e.bot_message, e.fixable_embed_links, t⟩ urls
        (by simp [hd])
      simp [runSignals, stepSignal, h1, h2, hd]
    · have h2 := uog_botPhase_single_nomatch m
        ⟨e.original_message, e.bot_message, e.fixable_embed_links, ec⟩ urls
        (by simp [hd, beq_iff_eq, ht])
      have hne : ¬(some t = some ec) := by simp [ht]
      simp [runSignals, stepSignal, h1, h2, hd, hne]

/-- From a single pending entry with neither side known, receiving the
original-message signal first and then the bot-message signal: same
suppression outcome as the other order. -/
theorem runSignals_origFirst (m : List (Nat × Nat)) (e : FutureEmbedRemoval)
    (ec : Nat) (urls : List String) :
    runSignals ⟨m, [e], [], []⟩
      [Signal.originalGen e.original_message urls, Signal.botGen e.bot_message ec]
    = match determine_target_embed_count urls e.fixable_embed_links with
      | some t =>
        (⟨m, [],
          [{ original_message := e.original_message
             bot_message := e.bot_message
             target_embed_count := t }], []⟩,
         if t = ec then 1 else 0)
      | none => (⟨m, [], [], []⟩, 0) := by
  have h1 := uog_neither_single m e urls
  cases hd : determine_target_embed_count urls e.fixable_embed_links with
  | none =>
    rw [hd] at h1
    have h2 := runSignals_empty m [Signal.botGen e.bot_message ec]
    simp [runSignals, stepSignal, h1, hd] at h2 ⊢
    simp [h2]
  | some t =>
    rw [hd] at h1
    by_cases ht : t = ec
    · subst ht
      have h2 := ubg_origPhase_single m ⟨e.original_message, e.bot_message, t⟩ t
      simp [runSignals, stepSignal, h1, h2, hd]
    · have h2 := ubg_origPhase_single m ⟨e.original_message, e.bot_message, t⟩ ec
      simp [runSignals, stepSignal, h1, h2, hd, ht]

/-! ### The claims -/

/-- Claim C1 (code bug in the source): suppression is not at-most-once
per correlation.  A store holding an original-side entry (original 1,
reply 2, target count 1) receives the identical reply-embed-count signal
twice; `update_bot_generated` never removes the matched entry (it holds
only the read guard on that path), so the suppression call fires on both
signals: two suppressions for one correlation. -/
theorem duplicate_bot_signal_fires_twice :
    runSignals (FutureEmbedRemovals.add_original_generated .new 1 2 1)
        [Signal.botGen 2 1, Signal.botGen 2 1]
      = (FutureEmbedRemovals.add_original_generated .new 1 2 1, 2) := rfl

/-- Claim C2: for both orderings of the two signals belonging to one
correlation (reply embed count via `update_bot_generated`, original embed
URLs via `update_original_generated`), starting from the same stored
pending entry, the suppression outcome is identical: exactly one
suppression when the target count computed from the original's embed URLs
matches the reply's embed count, and none otherwise. -/
theorem signal_order_commutes (m : List (Nat × Nat)) (e : FutureEmbedRemoval)
    (ec : Nat) (urls : List String) :
    (runSignals ⟨m, [e], [], []⟩
        [Signal.botGen e.bot_message ec,
         Signal.originalGen e.original_message urls]).2
      = (if determine_target_embed_count urls e.fixable_embed_links = some ec
          then 1 else 0)
    ∧ (runSignals ⟨m, [e], [], []⟩
        [Signal.originalGen e.original_message urls,
         Signal.botGen e.bot_message ec]).2
      = (if determine_target_embed_count urls e.fixable_embed_links = some ec
          then 1 else 0) := by
  constructor
  · rw [runSignals_botFirst]
    split <;> rfl
  · rw [runSignals_origFirst]
    cases hd : determine_target_embed_count urls e.fixable_embed_links with
    | none => simp
    | some t => by_cases ht : t = ec <;> simp [ht]

/-- Claim C3, counterexample: with a reply-side (`bot` bucket) entry
storing embed count 1 and no original-side entry, a second reply signal
reporting count 2 leaves the store completely unchanged — the stored
count stays 1, it is not overwritten to 2 as the claim states. -/
theorem update_bot_generated_keeps_stale_count :
    FutureEmbedRemovals.update_bot_generated
        (FutureEmbedRemovals.add_bot_generated .new 1 2 ["u"] 1) 2 2
      = (FutureEmbedRemovals.add_bot_generated .new 1 2 ["u"] 1, none)
    ∧ ((FutureEmbedRemovals.update_bot_generated
        (FutureEmbedRemovals.add_bot_generated .new 1 2 ["u"] 1) 2 2).1.bot.map
          (fun r => r.embed_count)) = [1] := ⟨rfl, rfl⟩

/-- Claim C3, amended: `update_bot_generated` first consults the
`neither` bucket: if the reply is pending there with unknown count, the
entry moves to the `bot` bucket carrying the reported count and nothing
is returned.  Otherwise the store is never modified: if an original-side
entry for the reply exists, the counts are compared and the original
message ID is returned exactly when they match, with both entries left in
place; and a reply whose count is already recorded in the `bot` bucket is
not updated — matching uses the first recorded value, not the latest. -/
theorem update_bot_generated_contract :
    (∀ (s : FutureEmbedRemovalsInner) (b ec : Nat)
        (r : FutureEmbedRemovalOriginalGenerated),
      s.neither.any (fun x => x.bot_message == b) = false →
      s.original.find? (fun x => x.bot_message == b) = some r →
      FutureEmbedRemovals.update_bot_generated s b ec
        = (s, if r.target_embed_count = ec then some r.original_message else none))
    ∧ (∀ (s : FutureEmbedRemovalsInner) (b ec : Nat),
      s.neither.any (fun x => x.bot_message == b) = false →
      (FutureEmbedRemovals.update_bot_generated s b ec).1 = s)
    ∧ (∀ (s : FutureEmbedRemovalsInner) (b ec i : Nat) (r : FutureEmbedRemoval),
      position (fun x => x.bot_message == b) s.neither = some i →
      s.neither.get? i = some r →
      FutureEmbedRemovals.update_bot_generated s b ec
        = ({ s with
              neither := swapRemove s.neither i
              bot := s.bot ++
                [{ original_message := r.original_message
                   _bot_message := r.bot_message
                   fixable_embed_links := r.fixable_embed_links
                   embed_count := ec }] }, none)) := by
  refine ⟨?_, ?_, ?_⟩
  · intro s b ec r hne hfind
    rw [FutureEmbedRemovals.update_bot_generated_not_neither hne]
    exact FutureEmbedRemovals.ubgOriginalPhase_find hfind
  · intro s b ec hne
    rw [FutureEmbedRemovals.update_bot_generated_not_neither hne]
    exact FutureEmbedRemovals.ubgOriginalPhase_fst s b ec
  · intro s b ec i r hpos hget
    exact FutureEmbedRemovals.update_bot_generated_neither hpos hget

/-- Witness for the amended claim C3, at a store holding one original-side
entry with target count 5. -/
theorem update_bot_generated_contract_witness :
    FutureEmbedRemovals.update_bot_generated ⟨[], [], [⟨1, 2, 5⟩], []⟩ 2 5
      = (⟨[], [], [⟨1, 2, 5⟩], []⟩, some 1) := by
  have h := update_bot_generated_contract.1 ⟨[], [], [⟨1, 2, 5⟩], []⟩ 2 5
    ⟨1, 2, 5⟩ rfl rfl
  simpa using h

/-- Claim C5, counterexample: registering the reply side (known count 2)
and then the original side (target count 2) does not resolve the
correlation — both entries remain in the store; the `add` operations
return no matched indication at all. -/
theorem register_both_sides_no_resolution :
    FutureEmbedRemovals.add_original_generated
        (FutureEmbedRemovals.add_bot_generated .new 1 2 [] 2) 1 2 2
      = ⟨[], [], [⟨1, 2, 2⟩], [⟨1, 2, [], 2⟩]⟩ := rfl

/-- Claim C5, amended: registration never reconciles.
`add_original_generated` and `add_bot_generated` only append an entry to
their bucket, so registering the two sides of a correlation in either
order produces the same store holding both entries, and no suppression
decision is made at registration time. -/
theorem add_functions_append_only (o b : Nat) (links : List String) (tc ec : Nat) :
    FutureEmbedRemovals.add_original_generated
        (FutureEmbedRemovals.add_bot_generated .new o b links ec) o b tc
      = FutureEmbedRemovals.add_bot_generated
          (FutureEmbedRemovals.add_original_generated .new o b tc) o b links ec
    ∧ FutureEmbedRemovals.add_original_generated
        (FutureEmbedRemovals.add_bot_generated .new o b links ec) o b tc
      = ⟨[], [], [⟨o, b, tc⟩], [⟨o, b, links, ec⟩]⟩ := ⟨rfl, rfl⟩

/-- Claim C6, counterexample: a mismatch is not terminal.  With an
original-side entry of target count 1, the reply signal with count 5
determines a mismatch yet leaves the store unchanged, and the subsequent
reply signal with count 1 resolves the correlation as a match and fires
one suppression. -/
theorem mismatch_then_match_fires :
    FutureEmbedRemovals.update_bot_generated ⟨[], [], [⟨1, 2, 1⟩], []⟩ 2 5
        = (⟨[], [], [⟨1, 2, 1⟩], []⟩, none)
    ∧ runSignals ⟨[], [], [⟨1, 2, 1⟩], []⟩ [Signal.botGen 2 5, Signal.botGen 2 1]
        = (⟨[], [], [⟨1, 2, 1⟩], []⟩, 1) := ⟨rfl, rfl⟩

/-- Claim C6, amended: when `update_bot_generated` finds an original-side
entry whose target count differs from the reported count, the store is
left unchanged — the entries for the correlation are retained, no
suppression fires for that signal, and a later signal carrying the
matching count for the same message IDs does resolve the correlation as a
match. -/
theorem mismatch_leaves_store_unchanged :
    ∀ (s : FutureEmbedRemovalsInner) (b ec : Nat)
      (r : FutureEmbedRemovalOriginalGenerated),
      s.neither.any (fun x => x.bot_message == b) = false →
      s.original.find? (fun x => x.bot_message == b) = some r →
      r.target_embed_count ≠ ec →
      FutureEmbedRemovals.update_bot_generated s b ec = (s, none)
      ∧ FutureEmbedRemovals.update_bot_generated s b r.target_embed_count
          = (s, some r.original_message) := by
  intro s b ec r hne hfind hmm
  constructor
  · rw [FutureEmbedRemovals.update_bot_generated_not_neither hne,
      FutureEmbedRemovals.ubgOriginalPhase_find hfind]
    simp [hmm]
  · rw [FutureEmbedRemovals.update_bot_generated_not_neither hne,
      FutureEmbedRemovals.ubgOriginalPhase_find hfind]
    simp

/-- Witness for the amended claim C6, at an original-side entry with
target count 1 and a mismatching signal of count 5. -/
theorem mismatch_leaves_store_unchanged_witness :
    FutureEmbedRemovals.update_bot_generated ⟨[], [], [⟨1, 2, 1⟩], []⟩ 2 5
        = (⟨[], [], [⟨1, 2, 1⟩], []⟩, none)
    ∧ FutureEmbedRemovals.update_bot_generated ⟨[], [], [⟨1, 2, 1⟩], []⟩ 2 1
        = (⟨[], [], [⟨1, 2, 1⟩], []⟩, some 1) :=
  mismatch_leaves_store_unchanged ⟨[], [], [⟨1, 2, 1⟩], []⟩ 2 5 ⟨1, 2, 1⟩
    rfl rfl (by decide)

/-- Claim C7 (code bug in the source): the two one-sided registration
branches of `handle_embed_suppression` are swapped.  When the original
message has no embeds yet but the reply does (first conjunct: original 1
with no embeds, reply 2 with one embed for the single fixable link), the
code registers the *original* side with a target count of 0 computed from
the original's empty embed list, instead of registering the reply side
with its known count 1.  When the original already shows its embed but
the reply does not (second conjunct), the code registers the *reply* side
with count 0 and never computes the target count from the original's
URLs. -/
theorem embed_branches_swapped :
    handle_embed_suppression .new ⟨1, []⟩ ⟨2, [some "u"]⟩ ["u"]
        = (⟨[], [], [⟨1, 2, 0⟩], []⟩, false)
    ∧ handle_embed_suppression .new ⟨1, [some "u"]⟩ ⟨2, []⟩ ["u"]
        = (⟨[], [], [], [⟨1, 2, ["u"], 0⟩]⟩, false) := ⟨rfl, rfl⟩

/-- Claim C8: when both the original message and the reply already show
embeds at reply time, `handle_embed_suppression` resolves synchronously —
it suppresses exactly when the target count computed from the original's
embed URLs equals the reply's embed count — and the pending-correlation
store is left untouched. -/
theorem fast_path_resolves_synchronously :
    ∀ (s : FutureEmbedRemovalsInner) (original_message bot_message : Msg)
      (fixable_embed_links : List String),
      original_message.embeds ≠ [] →
      bot_message.embeds ≠ [] →
      handle_embed_suppression s original_message bot_message fixable_embed_links
        = (s, decide (determine_target_embed_count
            (get_embed_urls original_message.embeds) fixable_embed_links
            = some bot_message.embeds.length)) := by
  intro s om bm fx h1 h2
  have e1 : om.embeds.isEmpty = false := by simpa [List.isEmpty_iff] using h1
  have e2 : bm.embeds.isEmpty = false := by simpa [List.isEmpty_iff] using h2
  unfold handle_embed_suppression
  rw [e1, e2]
  cases hd : determine_target_embed_count (get_embed_urls om.embeds) fx with
  | none => simp [hd]
  | some t => by_cases ht : t = bm.embeds.length <;> simp [hd, ht]

/-- Witness for claim C8: original with one embed matching the fixable
link, reply with one embed — immediate suppression, store untouched. -/
theorem fast_path_resolves_synchronously_witness :
    handle_embed_suppression .new ⟨1, [some "u"]⟩ ⟨2, [some "v"]⟩ ["u"]
      = (FutureEmbedRemovalsInner.new, true) := by
  have h := fast_path_resolves_synchronously FutureEmbedRemovalsInner.new
    ⟨1, [some "u"]⟩ ⟨2, [some "v"]⟩ ["u"] (by simp) (by simp)
  rw [h]
  decide

/-- Claim C9: the spoiler guard.  Whenever the message content contains
at least two occurrences of the two-pipe spoiler marker (counted as the
regex does, left to right without overlap), `fix_existing_message`
returns `none` regardless of the fixes the rewrite engine produced; a
single occurrence does not trigger the guard, as the content of two pipes
followed by a letter shows. -/
theorem spoiler_guard_blocks_fix :
    ∀ (content : String) (fixes : List LinkFix),
      (2 ≤ countSpoilerMarks content.data →
        fix_existing_message content fixes = none)
      ∧ has_spoilers "||x" = false
      ∧ fix_existing_message "||x"
          [{ link := "l", fixed := "f", remove_embed := false }]
          = some ("f", []) := by
  intro content fixes
  refine ⟨?_, by decide, by decide⟩
  intro h
  unfold fix_existing_message
  simp [has_spoilers, h]

/-- Witness for claim C9: content with two spoiler markers is rejected. -/
theorem spoiler_guard_blocks_fix_witness :
    fix_existing_message "||a||"
        [{ link := "l", fixed := "f", remove_embed := true }] = none :=
  (spoiler_guard_blocks_fix "||a||"
    [{ link := "l", fixed := "f", remove_embed := true }]).1 (by decide)

/-- Claim C10: when `update_original_generated` finds the correlation in
the `neither` bucket and the target-count computation abstains, the entry
is removed from the store entirely and `false` is returned; afterwards no
sequence of further signals ever fires a suppression or changes the
store. -/
theorem abstention_drops_correlation :
    ∀ (m : List (Nat × Nat)) (e : FutureEmbedRemoval) (urls : List String),
      determine_target_embed_count urls e.fixable_embed_links = none →
      FutureEmbedRemovals.update_original_generated ⟨m, [e], [], []⟩
          e.original_message urls
        = (⟨m, [], [], []⟩, false)
      ∧ (∀ sigs, runSignals ⟨m, [], [], []⟩ sigs = (⟨m, [], [], []⟩, 0)) := by
  intro m e urls hd
  refine ⟨?_, runSignals_empty m⟩
  have h := uog_neither_single m e urls
  rw [hd] at h
  exact h

/-- Witness for claim C10: a pending entry whose fixable link is not
among the reported embed URLs is dropped. -/
theorem abstention_drops_correlation_witness :
    FutureEmbedRemovals.update_original_generated ⟨[], [⟨1, 2, ["a"]⟩], [], []⟩
        1 ["b"]
      = (⟨[], [], [], []⟩, false) :=
  (abstention_drops_correlation [] ⟨1, 2, ["a"]⟩ ["b"] (by decide)).1

end Linkfixbot
